import Mathlib

/-!
# Recce: a recorder of one HTTP request/response pair

A shallow embedding of `tester.go` (package `recce`).

Modelling conventions.

* Go `string` and `[]byte` values are finite sequences; both are modelled by
  Lean `String` (converting between the two in Go keeps the content).
* A Go `error` is `Option String`: `none` is `nil`, `some msg` carries the
  text of `err.Error()`.
* A nil pointer or nil interface is `none`; a function that would dereference
  it panics, and a panic is the outer `none` of an `Option` result.
* The capabilities the package is handed (clock, file system, HTTP handler,
  JSON indenter, test reporter) are parameters or explicit logs.
-/

namespace Recce

/-! ## Configuration -/

/-- The Go struct `RecceConfig`. -/
structure RecceConfig where
  host : String
  port : String
  group : String
  dir : String
  prefix_ : String
  deriving DecidableEq, Repr

/-- The Go function `defaultConfig`. -/
def defaultConfig : RecceConfig :=
  { host := "http://localhost"
    port := "8080"
    group := "rest"
    dir := "recordings"
    prefix_ := "rec" }

/-- The Go type `RecceOption`, a function that updates a configuration in place. -/
abbrev RecceOption := RecceConfig → RecceConfig

/-- `WithHost` sets the host shown in the `.rest` file. -/
def WithHost (host : String) : RecceOption := fun c => { c with host := host }

/-- `WithPort` sets the port shown in the `.rest` file. -/
def WithPort (port : String) : RecceOption := fun c => { c with port := port }

/-- `WithGroup` sets the group, a path-like string. -/
def WithGroup (group : String) : RecceOption := fun c => { c with group := group }

/-- `WithOutputDirectory` sets the output directory. -/
def WithOutputDirectory (dir : String) : RecceOption := fun c => { c with dir := dir }

/-- `WithPrefix` sets the file prefix. -/
def WithPrefix (p : String) : RecceOption := fun c => { c with prefix_ := p }

/-- The five exported option constructors, as data, so that a statement can
quantify over every sequence of options a caller can pass. -/
inductive Opt where
  | host (v : String)
  | port (v : String)
  | group (v : String)
  | outputDirectory (v : String)
  | filePrefix (v : String)
  deriving DecidableEq, Repr

/-- The option function an `Opt` stands for. -/
def Opt.toOption : Opt → RecceOption
  | .host v => WithHost v
  | .port v => WithPort v
  | .group v => WithGroup v
  | .outputDirectory v => WithOutputDirectory v
  | .filePrefix v => WithPrefix v

/-! ## Library functions used by the package

The Go standard library is not part of the repository; the functions the
package calls are modelled from their documented behaviour on Unix. -/

/-- `strings.Split` on the characters of a string, for a separator of one
character (the package only splits on `"/"` and `";"`). The result is never
empty: a string without the separator yields itself as only element. -/
def splitChars (sep : Char) : List Char → List (List Char)
  | [] => [[]]
  | c :: cs =>
    if c = sep then [] :: splitChars sep cs
    else
      match splitChars sep cs with
      | [] => [[c]]
      | w :: ws => (c :: w) :: ws

/-- `strings.Split(s, sep)` for a one-character separator. -/
def strings.Split (s : String) (sep : Char) : List String :=
  (splitChars sep s.data).map String.mk

/-- `strings.Join(elems, sep)`. -/
def strings.Join : List String → String → String
  | [], _ => ""
  | [a], _ => a
  | a :: b :: rest, sep => a ++ sep ++ strings.Join (b :: rest) sep

/-- `unicode.IsSpace`: the characters with the Unicode White_Space property. -/
def unicode.IsSpace (c : Char) : Bool :=
  let n := c.toNat
  n = 0x09 || n = 0x0A || n = 0x0B || n = 0x0C || n = 0x0D || n = 0x20 ||
  n = 0x85 || n = 0xA0 || n = 0x1680 || (0x2000 ≤ n && n ≤ 0x200A) ||
  n = 0x2028 || n = 0x2029 || n = 0x202F || n = 0x205F || n = 0x3000

/-- `strings.TrimSpace` on a list of characters. -/
def trimChars (cs : List Char) : List Char :=
  ((cs.dropWhile unicode.IsSpace).reverse.dropWhile unicode.IsSpace).reverse

/-- `strings.TrimSpace(s)`: `s` without leading and trailing white space. -/
def strings.TrimSpace (s : String) : String := ⟨trimChars s.data⟩

/-- One element of the path handled by `filepath.Clean`. `stack` holds the
elements kept so far, the most recent first. Empty and `.` elements are dropped;
`..` removes the preceding element when that is a real one, is dropped at the
top of a rooted path, and is kept otherwise. -/
def cleanStep (rooted : Bool) (stack : List String) (elem : String) : List String :=
  if elem = "" then stack
  else if elem = "." then stack
  else if elem = ".." then
    match stack with
    | top :: below =>
      if top = ".." then (if rooted then stack else ".." :: stack) else below
    | [] => if rooted then stack else ".." :: stack
  else elem :: stack

/-- The elements `filepath.Clean` keeps, in path order. -/
def cleanElems (rooted : Bool) (elems : List String) : List String :=
  (elems.foldl (cleanStep rooted) []).reverse

/-- Whether a path starts with the separator. -/
def isRooted (path : String) : Bool := path.data.head? = some '/'

/-- The path spelled by kept elements: a rooted path starts with `/`, an
unrooted path without elements is `.`. -/
def renderPath (rooted : Bool) (elems : List String) : String :=
  if rooted then "/" ++ strings.Join elems "/"
  else if elems = [] then "." else strings.Join elems "/"

/-- `filepath.Clean(path)` on Unix, element by element. -/
def filepath.Clean (path : String) : String :=
  if path = "" then "."
  else renderPath (isRooted path) (cleanElems (isRooted path) (strings.Split path '/'))

/-- `filepath.Join(elem...)`: leading empty elements are ignored, the rest is
joined with `/` and cleaned; all elements empty gives the empty string. -/
def filepath.Join : List String → String
  | [] => ""
  | e :: rest =>
    if e = "" then filepath.Join rest
    else filepath.Clean (strings.Join (e :: rest) "/")

/-- `strconv.Itoa`: decimal digits, with a leading `-` for a negative number. -/
def Itoa (i : Int) : String := toString i

/-! ## HTTP values -/

/-- `http.Header`, a map from key to values, listed in the order in which a
`range` over the map visits the keys. -/
abbrev Header := List (String × List String)

/-- `Header.Get(key)`: the first value stored under `key`, or the empty string. -/
def Header.Get (h : Header) (key : String) : String :=
  match h.lookup key with
  | some (v :: _) => v
  | _ => ""

/-- An `io.ReadCloser`: the bytes it still has to yield, the error with which
reading ends once they are exhausted (`none` for `io.EOF`), and the error
`Close` returns. -/
structure Body where
  data : String
  readErr : Option String
  closeErr : Option String
  deriving DecidableEq, Repr

/-- `io.ReadAll(b)`: everything left in the stream, the error met, and the
stream after the read. -/
def ReadAll (b : Body) : String × Option String × Body :=
  (b.data, b.readErr, { b with data := "" })

/-- `io.NopCloser(bytes.NewBuffer(bytes))`: a fresh stream over `bytes` that
fails neither on read nor on close. -/
def NopCloserBuffer (bytes : String) : Body :=
  { data := bytes, readErr := none, closeErr := none }

/-- A `Read` of at most `n` characters by some consumer of the stream. -/
def Body.Read (n : Nat) (b : Body) : String × Body :=
  (⟨b.data.data.take n⟩, { b with data := ⟨b.data.data.drop n⟩ })

/-- The fields of `http.Request` the package uses; `URL` is the text of
`req.URL.String()`. -/
structure Request where
  Method : String
  URL : String
  Proto : String
  Header : Header
  Body : Option Body
  deriving DecidableEq, Repr

/-- The fields of `http.Response` the package uses. -/
structure Response where
  Proto : String
  Status : String
  Header : Header
  Body : Option Body
  deriving DecidableEq, Repr

/-! ## The recorder -/

/-- The Go struct `recce`. The `assert` field, the test reporter, is not state:
what the package reports to it is returned as a log of `Report`s. -/
structure recce where
  name : String
  host : String
  port : String
  group : String
  prefix_ : String
  dir : String
  tc : Int
  req : Option Request
  res : Option Response
  reqBytes : String
  resBytes : String
  deriving DecidableEq, Repr

/-- What the package tells the test reporter. `Errorf` is the record made by
`assert.NoError` for a non-nil error: the test is marked failed and goes on.
`FailNow` is `assert.FailNow`: the test is marked failed and stopped. -/
inductive Report where
  | Errorf (msg : String)
  | FailNow (msg : String)
  deriving DecidableEq, Repr

/-- `assert.NoError(err)`: nothing for a nil error, a non-fatal record otherwise. -/
def NoError (err : Option String) (log : List Report) : List Report :=
  match err with
  | none => log
  | some e => log ++ [Report.Errorf e]

/-- The Go function `Start`: the options are applied to the defaults in the
order given, and the recorder takes its fields from the result. -/
def Start (tc : Int) (name : String) (opts : List RecceOption) : recce :=
  let cfg := opts.foldl (fun cfg opt => opt cfg) defaultConfig
  { name := name
    host := cfg.host
    port := cfg.port
    group := cfg.group
    prefix_ := cfg.prefix_
    dir := cfg.dir
    tc := tc
    req := none
    res := none
    reqBytes := ""
    resBytes := "" }

/-- The method `isContentType`: the Content-Type header of the request, cut at
the first `;` and trimmed, compared with `ct`. Panics without a request. -/
def isContentType (s : recce) (ct : String) : Option Bool :=
  match s.req with
  | none => none
  | some req =>
    let contentType := Header.Get req.Header "Content-Type"
    let mimeType := (strings.Split contentType ';').headD ""
    some (decide (strings.TrimSpace mimeType = ct))

/-- The method `isContentTypeJSON`. -/
def isContentTypeJSON (s : recce) : Option Bool :=
  isContentType s "application/json"

/-- The method `tryPrettyPrinting`. `jsonIndent body` is the content of the
buffer after `json.Indent(&pp, body, "", "  ")`, or `none` when that call
returns an error. -/
def tryPrettyPrinting (jsonIndent : String → Option String) (s : recce)
    (body : String) : Option String :=
  match isContentTypeJSON s with
  | none => none
  | some true =>
    match jsonIndent body with
    | none => some body
    | some pp => some pp
  | some false => some body

/-- The comment block that opens a request file; `now` is
`time.Now().Format("02 January 2006 15:04:05")`. -/
def requestBanner (now : String) : String :=
  "// Automatically generated. Do not edit.\n" ++
  "// To reproduce this request, install REST client extension for VS Code or Goland and run the \"Send Request\" command.\n" ++
  "// File generated at " ++ now ++ "\n" ++
  "// ------------------------------------------------------------\n" ++
  "\n"

/-- The loop over a header map: one `key: value` line per value, appended to
the buffer. -/
def writeHeaders (buf : String) (h : Header) : String :=
  h.foldl (fun buf kv => kv.2.foldl (fun buf v => buf ++ kv.1 ++ ": " ++ v ++ "\n") buf) buf

/-- The method `prettyPrintRequest`: the text of the request file and the
error returned (always nil). Panics without a request. -/
def prettyPrintRequest (jsonIndent : String → Option String) (now : String)
    (s : recce) : Option (String × Option String) :=
  let buf := requestBanner now
  let buf := buf ++ ("// SCENARIO  " ++ Itoa s.tc ++ " (" ++ s.group ++ ")\n")
  let buf := buf ++ ("// Name: " ++ s.name ++ "\n")
  match s.req with
  | none => none
  | some req =>
    let buf := buf ++ (req.Method ++ " " ++ s.host ++ ":" ++ s.port ++ req.URL ++ " " ++ req.Proto ++ "\n")
    let buf := writeHeaders buf req.Header
    match req.Body with
    | none => some (buf, none)
    | some _ =>
      let buf := buf ++ "\n"
      match tryPrettyPrinting jsonIndent s s.reqBytes with
      | none => none
      | some printableBody => some (buf ++ printableBody, none)

/-- The comment block that opens a response file. -/
def responseBanner (now : String) : String :=
  "// Automatically generated. Do not edit.\n" ++
  "// File generated at " ++ now ++ "\n" ++
  "// ------------------------------------------------------------\n"

/-- The method `prettyPrintResponse`: the text of the response file, the error
returned, and the recorder afterwards (the response body stream has been read).
Writes to a `bytes.Buffer` return no error, so only the read of the body can
fail. Panics without a request or a response. -/
def prettyPrintResponse (jsonIndent : String → Option String) (now : String)
    (s : recce) : Option ((String × Option String) × recce) :=
  let buf := responseBanner now
  match s.req with
  | none => none
  | some req =>
    let buf := buf ++ (req.Method ++ " " ++ req.URL ++ " " ++ req.Proto ++ "\n\n")
    match s.res with
    | none => none
    | some res =>
      let buf := buf ++ (res.Proto ++ " " ++ res.Status ++ "\n")
      let buf := writeHeaders buf res.Header
      let buf := buf ++ "\n"
      match res.Body with
      | none => some ((buf, none), s)
      | some body =>
        let (b, err, body) := ReadAll body
        let s := { s with res := some { res with Body := some body } }
        match err with
        | some e => some (("", some e), s)
        | none =>
          match tryPrettyPrinting jsonIndent s b with
          | none => none
          | some printableBody => some ((buf ++ printableBody, none), s)

/-! ## Capturing bodies and sending -/

/-- The method `saveRequestBody`: the recorder afterwards and the error
returned. The bytes read are stored even when the read ends in an error; the
stream is replaced only after a read without error. -/
def saveRequestBody (s : recce) : Option (recce × Option String) :=
  match s.req with
  | none => none
  | some req =>
    match req.Body with
    | none => some (s, some "request has no body")
    | some body =>
      let (bytes, err, body) := ReadAll body
      let s := { s with reqBytes := bytes, req := some { req with Body := some body } }
      match err with
      | some e => some (s, some e)
      | none =>
        some ({ s with req := some { req with Body := some (NopCloserBuffer s.reqBytes) } }, none)

/-- The method `saveResponseBody`, the same procedure on the response. -/
def saveResponseBody (s : recce) : Option (recce × Option String) :=
  match s.res with
  | none => none
  | some res =>
    match res.Body with
    | none => some (s, some "response has no body")
    | some body =>
      let (bytes, err, body) := ReadAll body
      let s := { s with resBytes := bytes, res := some { res with Body := some body } }
      match err with
      | some e => some (s, some e)
      | none =>
        some ({ s with res := some { res with Body := some (NopCloserBuffer s.resBytes) } }, none)

/-- An `http.HandlerFunc` run against a fresh `httptest.ResponseRecorder`: from
the request it is handed, the request as the handler leaves it (it holds the
pointer) and the response `rr.Result()` builds from what the handler wrote. -/
abbrev Handler := Request → Request × Response

/-- The outcome of `SendRequest`: the recorder, what was reported, and the
response returned to the caller, `none` when `FailNow` stopped the test before
the method returned. -/
structure SendResult where
  s : recce
  log : List Report
  returned : Option Response
  deriving DecidableEq, Repr

/-- The method `SendRequest`. Panics without a request. -/
def SendRequest (handler : Handler) (s : recce) : Option SendResult :=
  match s.req with
  | none => none
  | some req =>
    let saved : Option (recce × Option String) :=
      match req.Body with
      | some _ => saveRequestBody s
      | none => some (s, none)
    match saved with
    | none => none
    | some (s, some e) => some { s := s, log := [Report.FailNow e], returned := none }
    | some (s, none) =>
      match s.req with
      | none => none
      | some req =>
        let (req, res) := handler req
        let s := { s with req := some req, res := some res }
        match res.Body with
        | none => some { s := s, log := [], returned := s.res }
        | some _ =>
          match saveResponseBody s with
          | none => none
          | some (s, some e) => some { s := s, log := [Report.FailNow e], returned := none }
          | some (s, none) => some { s := s, log := [], returned := s.res }

/-- The caller of `SendRequest` holds the pointer `s.res`: when it reads `n`
characters of the returned response's body, the recorder's response body
stream advances by as much. -/
def callerReads (n : Nat) (s : recce) : recce :=
  match s.res with
  | none => s
  | some res =>
    match res.Body with
    | none => s
    | some body => { s with res := some { res with Body := some (Body.Read n body).2 } }

/-! ## Writing the files -/

/-- The method `fullPath`: the output directory joined with the group split
at every `/`. -/
def fullPath (s : recce) : String :=
  let directories := strings.Split s.group '/'
  filepath.Join [s.dir, filepath.Join directories]

/-- The file system the package writes to, over a world `σ`: `os.MkdirAll`,
`os.Create` and `WriteString` on the created file (named by its path), each
giving the error returned and the world afterwards. The deferred `file.Close()`,
whose error the package drops, is left out. -/
structure FileSystem (σ : Type) where
  MkdirAll : String → σ → Option String × σ
  Create : String → σ → Option String × σ
  WriteString : String → String → σ → Option String × σ

/-- The method `createTestFile`: the error returned and the world afterwards. -/
def createTestFile {σ : Type} (fs : FileSystem σ) (jsonIndent : String → Option String)
    (now : String) (s : recce) (w : σ) : Option (Option String × σ) :=
  let fullPath := fullPath s
  match fs.MkdirAll fullPath w with
  | (some e, w) => some (some ("error creating directories: " ++ e), w)
  | (none, w) =>
    let fileName := "sc" ++ Itoa s.tc ++ ".rest"
    let path := filepath.Join [fullPath, fileName]
    match fs.Create path w with
    | (some e, w) => some (some ("error creating file: " ++ e), w)
    | (none, w) =>
      match prettyPrintRequest jsonIndent now s with
      | none => none
      | some (_, some e) => some (some ("error pretty printing request: " ++ e), w)
      | some (content, none) =>
        match fs.WriteString path content w with
        | (some e, w) => some (some ("error writing to file: " ++ e), w)
        | (none, w) => some (none, w)

/-- The method `createResponseFile`: the error returned, the recorder
afterwards and the world afterwards. -/
def createResponseFile {σ : Type} (fs : FileSystem σ) (jsonIndent : String → Option String)
    (now : String) (s : recce) (w : σ) : Option (Option String × recce × σ) :=
  let fullPath := fullPath s
  match fs.MkdirAll fullPath w with
  | (some e, w) => some (some ("error creating directories: " ++ e), s, w)
  | (none, w) =>
    let fileName := "sc" ++ Itoa s.tc ++ ".resp"
    let path := filepath.Join [fullPath, fileName]
    match fs.Create path w with
    | (some e, w) => some (some ("error creating file: " ++ e), s, w)
    | (none, w) =>
      match prettyPrintResponse jsonIndent now s with
      | none => none
      | some ((_, some e), s) => some (some ("error pretty printing response: " ++ e), s, w)
      | some ((content, none), s) =>
        match fs.WriteString path content w with
        | (some e, w) => some (some ("error writing to file: " ++ e), s, w)
        | (none, w) => some (none, s, w)

/-- The outcome of `Finish`: the recorder, the world, and what was reported. -/
structure FinishResult (σ : Type) where
  s : recce
  world : σ
  log : List Report

/-- The method `Finish`: the request file, the response file, then `Close` on
the response body, each followed by `assert.NoError`. `nowReq` and `nowRes` are
the two readings of the clock. Panics without a request, a response or a
response body. -/
def Finish {σ : Type} (fs : FileSystem σ) (jsonIndent : String → Option String)
    (nowReq nowRes : String) (s : recce) (w : σ) : Option (FinishResult σ) :=
  match createTestFile fs jsonIndent nowReq s w with
  | none => none
  | some (err, w) =>
    let log := NoError err []
    match createResponseFile fs jsonIndent nowRes s w with
    | none => none
    | some (err, s, w) =>
      let log := NoError err log
      match s.res with
      | none => none
      | some res =>
        match res.Body with
        | none => none
        | some body =>
          let err := body.closeErr
          let log := NoError err log
          some { s := s, world := w, log := log }

/-! ## Configuration resolution -/

/-- The host an option sets, if it sets the host. -/
def Opt.hostValue : Opt → Option String
  | .host v => some v
  | _ => none

/-- The port an option sets, if it sets the port. -/
def Opt.portValue : Opt → Option String
  | .port v => some v
  | _ => none

/-- The group an option sets, if it sets the group. -/
def Opt.groupValue : Opt → Option String
  | .group v => some v
  | _ => none

/-- The output directory an option sets, if it sets the output directory. -/
def Opt.dirValue : Opt → Option String
  | .outputDirectory v => some v
  | _ => none

/-- The file prefix an option sets, if it sets the file prefix. -/
def Opt.prefixValue : Opt → Option String
  | .filePrefix v => some v
  | _ => none

/-- The value of the last option of the sequence that sets the field read by
`pick`, or `dflt` when none sets it. -/
def lastSet (pick : Opt → Option String) (dflt : String) (os : List Opt) : String :=
  ((os.filterMap pick).getLast?).getD dflt

/-- Applying the options in order to a configuration. -/
def applyOpts (os : List Opt) (c : RecceConfig) : RecceConfig :=
  (os.map Opt.toOption).foldl (fun cfg opt => opt cfg) c

/-! ## Vocabulary of the statements -/

/-- The lines `writeHeaders` adds to a buffer. -/
def headerLines (h : Header) : String := writeHeaders "" h

/-- The text of a header value before its first `;`. -/
def beforeSemicolon (v : String) : String := ⟨v.data.takeWhile (fun c => c ≠ ';')⟩

/-- The request of the repository's test, as `http.NewRequest("POST", "/tasks", body)`
builds it: protocol `HTTP/1.1`, no header, the body over the test's input. -/
def testRequest : Request :=
  { Method := "POST"
    URL := "/tasks"
    Proto := "HTTP/1.1"
    Header := []
    Body := some (NopCloserBuffer "\x7b\"title\": \"Test Task\"\x7d") }

/-- The recorder of the repository's test once the request is attached:
`Start(1, "valid task", a, WithGroup("tasks/create"))` followed by `NewRequest`. -/
def testRecorder : recce :=
  { Start 1 "valid task" [WithGroup "tasks/create"] with req := some testRequest }

/-- Whether the Content-Type of a request, cut at its first `;` and trimmed,
is `application/json`. -/
def requestIsJSON (req : Request) : Bool :=
  decide (strings.TrimSpace (beforeSemicolon (Header.Get req.Header "Content-Type"))
    = "application/json")

/-- The JSON-or-raw rule: the indented form when the request is JSON and the
indenter accepts the bytes, the bytes themselves otherwise. -/
def jsonOrRaw (jsonIndent : String → Option String) (req : Request) (body : String) : String :=
  if requestIsJSON req then
    match jsonIndent body with
    | some pp => pp
    | none => body
  else body

/-- The request file up to the end of the header lines: banner, scenario
header, request line, headers. -/
def requestHead (now : String) (s : recce) (req : Request) : String :=
  requestBanner now ++
  ("// SCENARIO  " ++ Itoa s.tc ++ " (" ++ s.group ++ ")\n") ++
  ("// Name: " ++ s.name ++ "\n") ++
  (req.Method ++ " " ++ s.host ++ ":" ++ s.port ++ req.URL ++ " " ++ req.Proto ++ "\n") ++
  headerLines req.Header

/-- The response file up to the end of the header lines: banner, echo of the
request, status line, headers. -/
def responseHead (now : String) (req : Request) (res : Response) : String :=
  responseBanner now ++
  (req.Method ++ " " ++ req.URL ++ " " ++ req.Proto ++ "\n\n") ++
  (res.Proto ++ " " ++ res.Status ++ "\n") ++
  headerLines res.Header

/-- The scenario header in the words of the specification: the two lines
`// SCENARIO <n> (<group>)` and `// Name: <name>`, single spaces as separators. -/
def specScenarioHeader (n : Int) (group name : String) : String :=
  "// SCENARIO " ++ Itoa n ++ " (" ++ group ++ ")\n" ++ "// Name: " ++ name ++ "\n"

/-- A JSON indenter that rejects every input. -/
def indentFails : String → Option String := fun _ => none

/-- A reading of the clock. -/
def sampleNow : String := "04 November 2026 12:00:00"

/-- A JSON indenter for the examples: it accepts every input and wraps it in
brackets. -/
def indentWraps : String → Option String := fun b => some ("[" ++ b ++ "]")

/-- A request whose Content-Type carries a parameter after the MIME type. -/
def jsonRequest : Request :=
  { Method := "POST"
    URL := "/tasks"
    Proto := "HTTP/1.1"
    Header := [("Content-Type", ["application/json; charset=utf-8"])]
    Body := some (NopCloserBuffer "1") }

/-- A recorder holding `jsonRequest`. -/
def jsonRecorder : recce :=
  { Start 1 "valid task" [] with req := some jsonRequest, reqBytes := "1" }

/-- A response `200 OK` without headers whose body stream yields `bytes`, as
`rr.Result()` builds it. -/
def okResponse (bytes : String) : Response :=
  { Proto := "HTTP/1.1"
    Status := "200 OK"
    Header := []
    Body := some (NopCloserBuffer bytes) }

/-- The response `rr.Result()` builds after a handler that only writes `hello`:
the recorder sniffs the content type of the first write, so the response
carries `Content-Type: text/plain; charset=utf-8`. -/
def helloResponse : Response :=
  { Proto := "HTTP/1.1"
    Status := "200 OK"
    Header := [("Content-Type", ["text/plain; charset=utf-8"])]
    Body := some (NopCloserBuffer "hello") }

/-- A handler that leaves the request alone and writes `hello`. -/
def helloHandler : Handler := fun req => (req, helloResponse)

/-- A handler that leaves the request alone and writes nothing. -/
def silentHandler : Handler := fun req => (req, okResponse "")

/-- A request without a body, as `http.NewRequest("GET", "/tasks", nil)` builds it. -/
def bodilessRequest : Request :=
  { Method := "GET"
    URL := "/tasks"
    Proto := "HTTP/1.1"
    Header := []
    Body := none }

/-- A recorder holding `bodilessRequest`. -/
def bodilessRecorder : recce :=
  { Start 1 "list tasks" [] with req := some bodilessRequest }

/-- The recorder `jsonRecorder` after `helloHandler` answered. -/
def answeredRecorder : recce :=
  { jsonRecorder with res := some helloResponse, resBytes := "hello" }

/-- The recorder `bodilessRecorder` after `silentHandler` answered: the
response body stream is present and yields nothing. -/
def silentRecorder : recce :=
  { bodilessRecorder with res := some (okResponse "") }

/-- A file system in memory that never fails; the world lists the files
created and the contents written, the latest first. -/
def memFS : FileSystem (List (String × String)) :=
  { MkdirAll := fun _ w => (none, w)
    Create := fun path w => (none, (path, "") :: w)
    WriteString := fun path content w => (none, (path, content) :: w) }

/-- A file system on which every call fails; the world lists the calls made,
the earliest first. -/
def brokenFS : FileSystem (List String) :=
  { MkdirAll := fun path w => (some "permission denied", w ++ ["MkdirAll " ++ path])
    Create := fun path w => (some "permission denied", w ++ ["Create " ++ path])
    WriteString := fun path _ w => (some "permission denied", w ++ ["WriteString " ++ path]) }

/-- The request `SendRequest` hands to the handler when capture succeeds: the
request itself without a body, the request over a fresh stream with the bytes
of its body otherwise. -/
def capturedRequest (req : Request) : Request :=
  match req.Body with
  | none => req
  | some body => { req with Body := some (NopCloserBuffer body.data) }

/-- A recorder whose response body stream fails on `Close`. -/
def closeFailsRecorder : recce :=
  { jsonRecorder with
    res := some { helloResponse with
      Body := some { data := "hello", readErr := none, closeErr := some "already closed" } } }

/-- A recorder whose request body stream fails on read after `ab`. -/
def readFailsRecorder : recce :=
  { jsonRecorder with
    req := some { jsonRequest with
      Body := some { data := "ab", readErr := some "unexpected EOF", closeErr := none } } }

/-- A path element that `filepath.Clean` keeps as it is: not empty, not `.`
and not `..`. -/
def PlainElem (seg : String) : Prop := seg ≠ "" ∧ seg ≠ "." ∧ seg ≠ ".."

/-- The output path in the words of the specification: the configured root
followed by one nested subdirectory per slash-separated segment of the group,
in order. -/
def specFullPath (dir group : String) : String :=
  strings.Join (dir :: strings.Split group '/') "/"

/-- The text of the request file: the head, and for a request with a body a
blank line and the captured request bytes under the JSON-or-raw rule. -/
def requestFileText (jsonIndent : String → Option String) (now : String) (s : recce)
    (req : Request) : String :=
  match req.Body with
  | none => requestHead now s req
  | some _ => requestHead now s req ++ "\n" ++ jsonOrRaw jsonIndent req s.reqBytes

/-- The text of the response file for a response whose body stream `rb` reads
without error: the head, a blank line, and what the stream yields under the
JSON-or-raw rule. -/
def responseFileText (jsonIndent : String → Option String) (now : String) (req : Request)
    (res : Response) (rb : Body) : String :=
  responseHead now req res ++ "\n" ++ jsonOrRaw jsonIndent req rb.data

/-- A file system on which only `os.Create` fails; the world lists the calls
made, the earliest first. -/
def createFailsFS : FileSystem (List String) :=
  { MkdirAll := fun path w => (none, w ++ ["MkdirAll " ++ path])
    Create := fun path w => (some "permission denied", w ++ ["Create " ++ path])
    WriteString := fun path _ w => (none, w ++ ["WriteString " ++ path]) }

/-- A file system on which only `WriteString` fails; the world lists the
calls made, the earliest first. -/
def writeFailsFS : FileSystem (List String) :=
  { MkdirAll := fun path w => (none, w ++ ["MkdirAll " ++ path])
    Create := fun path w => (none, w ++ ["Create " ++ path])
    WriteString := fun path _ w => (some "disk full", w ++ ["WriteString " ++ path]) }

/-! # Theorems -/

set_option maxRecDepth 100000

/-! ## Configuration resolution: proofs -/

theorem lastSet_nil (pick : Opt → Option String) (d : String) : lastSet pick d [] = d := rfl

theorem lastSet_cons_none (pick : Opt → Option String) (d : String) (o : Opt) (os : List Opt)
    (h : pick o = none) : lastSet pick d (o :: os) = lastSet pick d os := by
  simp [lastSet, List.filterMap_cons, h]

theorem lastSet_cons_some (pick : Opt → Option String) (d v : String) (o : Opt) (os : List Opt)
    (h : pick o = some v) : lastSet pick d (o :: os) = lastSet pick v os := by
  simp only [lastSet, List.filterMap_cons, h]
  cases hl : List.filterMap pick os with
  | nil => simp
  | cons a l =>
    rw [List.getLast?_cons_cons, List.getLast?_eq_getLast _ (List.cons_ne_nil a l)]
    rfl

theorem applyOpts_cons (o : Opt) (os : List Opt) (c : RecceConfig) :
    applyOpts (o :: os) c = applyOpts os (o.toOption c) := rfl

theorem applyOpts_fields (os : List Opt) : ∀ c : RecceConfig,
    (applyOpts os c).host = lastSet Opt.hostValue c.host os ∧
    (applyOpts os c).port = lastSet Opt.portValue c.port os ∧
    (applyOpts os c).group = lastSet Opt.groupValue c.group os ∧
    (applyOpts os c).dir = lastSet Opt.dirValue c.dir os ∧
    (applyOpts os c).prefix_ = lastSet Opt.prefixValue c.prefix_ os := by
  induction os with
  | nil => intro c; exact ⟨rfl, rfl, rfl, rfl, rfl⟩
  | cons o os ih =>
    intro c
    rw [applyOpts_cons]
    obtain ⟨h1, h2, h3, h4, h5⟩ := ih (o.toOption c)
    rw [h1, h2, h3, h4, h5]
    cases o with
    | host v =>
      exact ⟨(lastSet_cons_some _ _ v _ _ rfl).symm, (lastSet_cons_none _ _ _ _ rfl).symm,
        (lastSet_cons_none _ _ _ _ rfl).symm, (lastSet_cons_none _ _ _ _ rfl).symm,
        (lastSet_cons_none _ _ _ _ rfl).symm⟩
    | port v =>
      exact ⟨(lastSet_cons_none _ _ _ _ rfl).symm, (lastSet_cons_some _ _ v _ _ rfl).symm,
        (lastSet_cons_none _ _ _ _ rfl).symm, (lastSet_cons_none _ _ _ _ rfl).symm,
        (lastSet_cons_none _ _ _ _ rfl).symm⟩
    | group v =>
      exact ⟨(lastSet_cons_none _ _ _ _ rfl).symm, (lastSet_cons_none _ _ _ _ rfl).symm,
        (lastSet_cons_some _ _ v _ _ rfl).symm, (lastSet_cons_none _ _ _ _ rfl).symm,
        (lastSet_cons_none _ _ _ _ rfl).symm⟩
    | outputDirectory v =>
      exact ⟨(lastSet_cons_none _ _ _ _ rfl).symm, (lastSet_cons_none _ _ _ _ rfl).symm,
        (lastSet_cons_none _ _ _ _ rfl).symm, (lastSet_cons_some _ _ v _ _ rfl).symm,
        (lastSet_cons_none _ _ _ _ rfl).symm⟩
    | filePrefix v =>
      exact ⟨(lastSet_cons_none _ _ _ _ rfl).symm, (lastSet_cons_none _ _ _ _ rfl).symm,
        (lastSet_cons_none _ _ _ _ rfl).symm, (lastSet_cons_none _ _ _ _ rfl).symm,
        (lastSet_cons_some _ _ v _ _ rfl).symm⟩

/-- C6: for every sequence of options, each of the recorder's host, port, group,
output directory and prefix is the value of the last option that sets it, or
its default (`http://localhost`, `8080`, `rest`, `recordings`, `rec`) when no
option sets it; and an option that does not set a field leaves that field of
the configuration as it was. -/
theorem Start_applies_options_in_order (tc : Int) (name : String) (os : List Opt) :
    ((Start tc name (os.map Opt.toOption)).host = lastSet Opt.hostValue "http://localhost" os ∧
     (Start tc name (os.map Opt.toOption)).port = lastSet Opt.portValue "8080" os ∧
     (Start tc name (os.map Opt.toOption)).group = lastSet Opt.groupValue "rest" os ∧
     (Start tc name (os.map Opt.toOption)).dir = lastSet Opt.dirValue "recordings" os ∧
     (Start tc name (os.map Opt.toOption)).prefix_ = lastSet Opt.prefixValue "rec" os) ∧
    (∀ (o : Opt) (c : RecceConfig),
      (o.hostValue = none → (o.toOption c).host = c.host) ∧
      (o.portValue = none → (o.toOption c).port = c.port) ∧
      (o.groupValue = none → (o.toOption c).group = c.group) ∧
      (o.dirValue = none → (o.toOption c).dir = c.dir) ∧
      (o.prefixValue = none → (o.toOption c).prefix_ = c.prefix_)) := by
  refine ⟨applyOpts_fields os defaultConfig, ?_⟩
  intro o c
  cases o <;> simp [Opt.toOption, Opt.hostValue, Opt.portValue, Opt.groupValue, Opt.dirValue,
    Opt.prefixValue, WithHost, WithPort, WithGroup, WithOutputDirectory, WithPrefix]

/-- Witness of C6: a port option leaves the host as it was, and of two host
options the later one decides. -/
theorem Start_applies_options_in_order_witness :
    (Opt.hostValue (Opt.port "9090") = none ∧
      ((Opt.port "9090").toOption defaultConfig).host = defaultConfig.host) ∧
    (Start 1 "valid task"
      ([Opt.host "http://a", Opt.port "9090", Opt.host "http://b"].map Opt.toOption)).host
      = "http://b" :=
  ⟨⟨rfl, ((Start_applies_options_in_order 1 "valid task" []).2 (Opt.port "9090")
      defaultConfig).1 rfl⟩,
    (Start_applies_options_in_order 1 "valid task"
      [Opt.host "http://a", Opt.port "9090", Opt.host "http://b"]).1.1.trans (by decide)⟩

/-! ## Strings and headers: lemmas -/

theorem splitChars_ne_nil (sep : Char) (cs : List Char) : splitChars sep cs ≠ [] := by
  cases cs with
  | nil => simp [splitChars]
  | cons c cs =>
    unfold splitChars
    split
    · simp
    · split <;> simp

theorem splitChars_headD (sep : Char) (cs : List Char) :
    (splitChars sep cs).headD [] = cs.takeWhile (fun c => c ≠ sep) := by
  induction cs with
  | nil => simp [splitChars]
  | cons c cs ih =>
    unfold splitChars
    by_cases h : c = sep
    · simp [h]
    · simp only [h, if_false]
      cases hs : splitChars sep cs with
      | nil => exact absurd hs (splitChars_ne_nil sep cs)
      | cons w ws =>
        rw [hs] at ih
        simp only [List.headD_cons] at ih
        simp [List.takeWhile_cons, h, ih]

theorem Split_headD (v : String) (sep : Char) :
    (strings.Split v sep).headD "" = ⟨v.data.takeWhile (fun c => c ≠ sep)⟩ := by
  unfold strings.Split
  cases hs : splitChars sep v.data with
  | nil => exact absurd hs (splitChars_ne_nil sep v.data)
  | cons w ws =>
    have h := splitChars_headD sep v.data
    rw [hs] at h
    simp only [List.headD_cons] at h
    simp [h]

theorem foldl_values_eq (k : String) (vs : List String) : ∀ buf : String,
    vs.foldl (fun buf v => buf ++ k ++ ": " ++ v ++ "\n") buf =
      buf ++ vs.foldl (fun buf v => buf ++ k ++ ": " ++ v ++ "\n") "" := by
  induction vs with
  | nil => intro buf; simp
  | cons v vs ih =>
    intro buf
    simp only [List.foldl_cons]
    rw [ih, ih ("" ++ k ++ ": " ++ v ++ "\n")]
    simp [String.append_assoc]

theorem writeHeaders_eq (h : Header) : ∀ buf : String,
    writeHeaders buf h = buf ++ headerLines h := by
  unfold headerLines writeHeaders
  induction h with
  | nil => intro buf; simp
  | cons kv h ih =>
    intro buf
    simp only [List.foldl_cons]
    rw [ih, ih (List.foldl _ "" kv.2), foldl_values_eq kv.1 kv.2 buf]
    simp [String.append_assoc]

theorem isContentTypeJSON_eq (s : recce) (req : Request) (h : s.req = some req) :
    isContentTypeJSON s = some (decide (strings.TrimSpace
      (beforeSemicolon (Header.Get req.Header "Content-Type")) = "application/json")) := by
  simp only [isContentTypeJSON, isContentType, h, Split_headD, beforeSemicolon]

theorem tryPrettyPrinting_eq (jsonIndent : String → Option String) (s : recce)
    (req : Request) (h : s.req = some req) (body : String) :
    tryPrettyPrinting jsonIndent s body = some (jsonOrRaw jsonIndent req body) := by
  unfold tryPrettyPrinting jsonOrRaw requestIsJSON
  rw [isContentTypeJSON_eq s req h]
  by_cases hj : strings.TrimSpace (beforeSemicolon (Header.Get req.Header "Content-Type"))
      = "application/json"
  · simp only [hj, decide_True, if_true]
    cases jsonIndent body <;> rfl
  · simp only [hj, decide_False]
    rfl

/-! ## The serializers: shape of the output -/

theorem prettyPrintRequest_shape (jsonIndent : String → Option String) (now : String)
    (s : recce) (req : Request) (h : s.req = some req) :
    prettyPrintRequest jsonIndent now s =
      match req.Body with
      | none => some (requestHead now s req, none)
      | some _ =>
        some (requestHead now s req ++ "\n" ++ jsonOrRaw jsonIndent req s.reqBytes, none) := by
  unfold prettyPrintRequest requestHead
  simp only [h, writeHeaders_eq]
  cases req.Body with
  | none => rfl
  | some b =>
    simp only []
    rw [tryPrettyPrinting_eq jsonIndent s req h]

theorem prettyPrintResponse_shape (jsonIndent : String → Option String) (now : String)
    (s : recce) (req : Request) (res : Response) (h : s.req = some req)
    (hres : s.res = some res) :
    (prettyPrintResponse jsonIndent now s).map (fun r => r.1) =
      match res.Body with
      | none => some (responseHead now req res ++ "\n", none)
      | some body =>
        match body.readErr with
        | some e => some ("", some e)
        | none =>
          some (responseHead now req res ++ "\n" ++ jsonOrRaw jsonIndent req body.data, none) := by
  unfold prettyPrintResponse responseHead
  simp only [h, hres, writeHeaders_eq]
  cases res.Body with
  | none => rfl
  | some b =>
    simp only [ReadAll]
    cases b.readErr with
    | some e => rfl
    | none =>
      simp only []
      rw [tryPrettyPrinting_eq jsonIndent _ req rfl]
      rfl

/-! ## The request file -/

/-- C2: for every recorder with an attached request, the request file is the
banner, the scenario line, the line `// Name: <name>`, and immediately after it
the line `<METHOD> <host>:<port><url> <proto>`, followed by the rest of the file;
for the recorder of the test (default host and port, `POST`, `/tasks`) that line
is `POST http://localhost:8080/tasks HTTP/1.1`. -/
theorem request_line_follows_name_line (jsonIndent : String → Option String) (now : String)
    (s : recce) (req : Request) (h : s.req = some req) :
    (∃ rest, prettyPrintRequest jsonIndent now s = some
      (requestBanner now ++
        ("// SCENARIO  " ++ Itoa s.tc ++ " (" ++ s.group ++ ")\n") ++
        ("// Name: " ++ s.name ++ "\n") ++
        (req.Method ++ " " ++ s.host ++ ":" ++ s.port ++ req.URL ++ " " ++ req.Proto ++ "\n") ++
        rest, none)) ∧
    (∃ rest, prettyPrintRequest jsonIndent now testRecorder = some
      (requestBanner now ++
        "// SCENARIO  1 (tasks/create)\n" ++
        "// Name: valid task\n" ++
        "POST http://localhost:8080/tasks HTTP/1.1\n" ++
        rest, none)) := by
  constructor
  · rw [prettyPrintRequest_shape jsonIndent now s req h]
    cases req.Body with
    | none => exact ⟨headerLines req.Header, rfl⟩
    | some b =>
      refine ⟨headerLines req.Header ++ "\n" ++ jsonOrRaw jsonIndent req s.reqBytes, ?_⟩
      simp [requestHead, String.append_assoc]
  · rw [prettyPrintRequest_shape jsonIndent now testRecorder testRequest rfl]
    refine ⟨"\n" ++ jsonOrRaw jsonIndent testRequest testRecorder.reqBytes, ?_⟩
    have h1 : Itoa testRecorder.tc = "1" := by decide
    have h2 : testRecorder.group = "tasks/create" := rfl
    have h3 : testRecorder.name = "valid task" := rfl
    have h4 : testRecorder.host = "http://localhost" := rfl
    have h5 : testRecorder.port = "8080" := rfl
    have h6 : headerLines testRequest.Header = "" := rfl
    simp only [testRequest, requestHead, h1, h2, h3, h4, h5, h6] at *
    simp only [String.append_assoc, String.append_empty]
    rfl

/-- Witness of C2 at the recorder of the test. -/
theorem request_line_follows_name_line_witness :
    testRecorder.req = some testRequest ∧
    ∃ rest, prettyPrintRequest indentFails sampleNow testRecorder = some
      (requestBanner sampleNow ++
        "// SCENARIO  1 (tasks/create)\n" ++
        "// Name: valid task\n" ++
        "POST http://localhost:8080/tasks HTTP/1.1\n" ++
        rest, none) :=
  ⟨rfl, (request_line_follows_name_line indentFails sampleNow testRecorder testRequest rfl).2⟩

/-- C7 as stated fails: for sequence number 1, group `tasks/create` and name
`valid task`, the request file does not continue after the banner with the
lines `// SCENARIO 1 (tasks/create)` and `// Name: valid task`. -/
theorem scenario_header_single_space_refuted :
    ∃ out, prettyPrintRequest indentFails sampleNow testRecorder = some (out, none) ∧
      ¬ ((requestBanner sampleNow ++
          specScenarioHeader 1 "tasks/create" "valid task").data <+: out.data) := by
  refine ⟨_, rfl, ?_⟩
  decide

/-- C7, amended: for every sequence number, group and name, the request file
continues after the banner and its blank line with the two lines
`// SCENARIO  <n> (<group>)`, two spaces standing between `SCENARIO` and the
decimal number, and `// Name: <name>`. -/
theorem scenario_header_two_spaces (jsonIndent : String → Option String) (now : String)
    (s : recce) (req : Request) (h : s.req = some req) :
    ∃ rest, prettyPrintRequest jsonIndent now s = some
      (requestBanner now ++
        ("// SCENARIO  " ++ Itoa s.tc ++ " (" ++ s.group ++ ")\n") ++
        ("// Name: " ++ s.name ++ "\n") ++
        rest, none) := by
  rw [prettyPrintRequest_shape jsonIndent now s req h]
  cases req.Body with
  | none =>
    refine ⟨(req.Method ++ " " ++ s.host ++ ":" ++ s.port ++ req.URL ++ " " ++ req.Proto ++ "\n")
      ++ headerLines req.Header, ?_⟩
    simp [requestHead, String.append_assoc]
  | some b =>
    refine ⟨(req.Method ++ " " ++ s.host ++ ":" ++ s.port ++ req.URL ++ " " ++ req.Proto ++ "\n")
      ++ headerLines req.Header ++ "\n" ++ jsonOrRaw jsonIndent req s.reqBytes, ?_⟩
    simp [requestHead, String.append_assoc]

/-- Witness of the amended C7 at the recorder of the test. -/
theorem scenario_header_two_spaces_witness :
    testRecorder.req = some testRequest ∧
    ∃ rest, prettyPrintRequest indentFails sampleNow testRecorder = some
      (requestBanner sampleNow ++
        ("// SCENARIO  " ++ Itoa testRecorder.tc ++ " (" ++ testRecorder.group ++ ")\n") ++
        ("// Name: " ++ testRecorder.name ++ "\n") ++
        rest, none) :=
  ⟨rfl, scenario_header_two_spaces indentFails sampleNow testRecorder testRequest rfl⟩

/-! ## The JSON-or-raw rule -/

/-- C3: for every body and every request, `tryPrettyPrinting` returns bytes and
no error; the bytes are the input itself when the content type is not JSON and
when indentation fails, and the indented form when the content type is JSON and
indentation succeeds. -/
theorem tryPrettyPrinting_raw_unless_json_indents (jsonIndent : String → Option String)
    (s : recce) (req : Request) (h : s.req = some req) (body : String) :
    ∃ out, tryPrettyPrinting jsonIndent s body = some out ∧
      (isContentTypeJSON s = some false → out = body) ∧
      (jsonIndent body = none → out = body) ∧
      (∀ pp, isContentTypeJSON s = some true → jsonIndent body = some pp → out = pp) := by
  refine ⟨jsonOrRaw jsonIndent req body, tryPrettyPrinting_eq jsonIndent s req h body, ?_, ?_, ?_⟩
  · intro hf
    rw [isContentTypeJSON_eq s req h] at hf
    have hf2 : requestIsJSON req = false := Option.some.inj hf
    simp [jsonOrRaw, hf2]
  · intro hn
    unfold jsonOrRaw
    rw [hn]
    split <;> rfl
  · intro pp ht hp
    rw [isContentTypeJSON_eq s req h] at ht
    have ht2 : requestIsJSON req = true := Option.some.inj ht
    simp [jsonOrRaw, ht2, hp]

/-- Witness of C3: a JSON request whose body the indenter rejects keeps its bytes. -/
theorem tryPrettyPrinting_raw_unless_json_indents_witness :
    jsonRecorder.req = some jsonRequest ∧
    ∃ out, tryPrettyPrinting indentFails jsonRecorder "\x7bnot json" = some out ∧
      (isContentTypeJSON jsonRecorder = some false → out = "\x7bnot json") ∧
      (indentFails "\x7bnot json" = none → out = "\x7bnot json") ∧
      (∀ pp, isContentTypeJSON jsonRecorder = some true →
        indentFails "\x7bnot json" = some pp → out = pp) :=
  ⟨rfl, tryPrettyPrinting_raw_unless_json_indents indentFails jsonRecorder jsonRequest rfl
    "\x7bnot json"⟩

/-- C9: the JSON decision of a recorder is read off the Content-Type header of
its request alone: it holds exactly when the header value before its first `;`,
trimmed, is `application/json`, so it holds for `application/json; charset=utf-8`;
the rule applied to any body is the same for two recorders whose requests carry
the same Content-Type, and replacing the response, headers included, changes
neither the decision nor the rule; both serializers apply that rule, the
request file to the captured request bytes and the response file to the
response body. -/
theorem json_decision_from_request_content_type (jsonIndent : String → Option String)
    (now : String) (s : recce) (req : Request) (res res2 : Response) (rb : Body) (body : String)
    (h : s.req = some req) (hres : s.res = some res) (hrb : res.Body = some rb)
    (hread : rb.readErr = none) :
    isContentTypeJSON s = some (decide (strings.TrimSpace
      (beforeSemicolon (Header.Get req.Header "Content-Type")) = "application/json")) ∧
    (Header.Get req.Header "Content-Type" = "application/json; charset=utf-8" →
      isContentTypeJSON s = some true) ∧
    (∀ (s2 : recce) (req2 : Request), s2.req = some req2 →
      Header.Get req2.Header "Content-Type" = Header.Get req.Header "Content-Type" →
      isContentTypeJSON s2 = isContentTypeJSON s ∧
      tryPrettyPrinting jsonIndent s2 body = tryPrettyPrinting jsonIndent s body) ∧
    isContentTypeJSON { s with res := some res2 } = isContentTypeJSON s ∧
    tryPrettyPrinting jsonIndent { s with res := some res2 } body
      = tryPrettyPrinting jsonIndent s body ∧
    (∀ b, req.Body = some b → prettyPrintRequest jsonIndent now s = some
      (requestHead now s req ++ "\n" ++ jsonOrRaw jsonIndent req s.reqBytes, none)) ∧
    (prettyPrintResponse jsonIndent now s).map (fun r => r.1) = some
      (responseHead now req res ++ "\n" ++ jsonOrRaw jsonIndent req rb.data, none) := by
  refine ⟨isContentTypeJSON_eq s req h, ?_, ?_, rfl, rfl, ?_, ?_⟩
  · intro hv
    rw [isContentTypeJSON_eq s req h, hv]
    decide
  · intro s2 req2 h2 hv
    refine ⟨?_, ?_⟩
    · rw [isContentTypeJSON_eq s req h, isContentTypeJSON_eq s2 req2 h2, hv]
    · rw [tryPrettyPrinting_eq jsonIndent s req h, tryPrettyPrinting_eq jsonIndent s2 req2 h2]
      simp only [jsonOrRaw, requestIsJSON, hv]
  · intro b hb
    rw [prettyPrintRequest_shape jsonIndent now s req h, hb]
  · rw [prettyPrintResponse_shape jsonIndent now s req res h hres, hrb]
    simp only [hread]

/-- Witness of C9 at a recorder whose request is `application/json; charset=utf-8`. -/
theorem json_decision_from_request_content_type_witness :
    (answeredRecorder.req = some jsonRequest ∧ answeredRecorder.res = some helloResponse ∧
      helloResponse.Body = some (NopCloserBuffer "hello") ∧
      (NopCloserBuffer "hello").readErr = none) ∧
    isContentTypeJSON answeredRecorder = some true ∧
    (prettyPrintResponse indentWraps sampleNow answeredRecorder).map (fun r => r.1) = some
      (responseHead sampleNow jsonRequest helloResponse ++ "\n" ++
        jsonOrRaw indentWraps jsonRequest "hello", none) :=
  have h := json_decision_from_request_content_type indentWraps sampleNow answeredRecorder
    jsonRequest helloResponse (okResponse "") (NopCloserBuffer "hello") "1" rfl rfl rfl rfl
  ⟨⟨rfl, rfl, rfl, rfl⟩, h.2.1 rfl, h.2.2.2.2.2.2⟩

/-! ## Body capture -/

/-- C1: for every recorder with an attached request: when the body stream of
the request yields `b` read to its end without error, `saveRequestBody` stores
`b` as the captured bytes and replaces the stream by a fresh one that yields `b`
again, read to its end without error; `saveResponseBody` does the same for a
response; and `SendRequest` runs both around the handler, whether or not the
request has a body: the handler is handed the request over the fresh stream
(the request itself when it has no body), the captured request bytes are those
of the request body, the captured response bytes are those the response body
yields, and the response returned carries a fresh stream that yields them
again. -/
theorem body_capture_round_trip (s : recce) (req : Request) (h : s.req = some req) :
    (∀ (body : Body) (b : String), req.Body = some body →
      (ReadAll body).1 = b ∧ (ReadAll body).2.1 = none →
      ∃ s2 fresh, saveRequestBody s = some (s2, none) ∧ s2.reqBytes = b ∧
        s2.req = some { req with Body := some fresh } ∧
        (ReadAll fresh).1 = b ∧ (ReadAll fresh).2.1 = none) ∧
    (∀ (t : recce) (res : Response) (rbody : Body) (rb : String),
      t.res = some res → res.Body = some rbody →
      (ReadAll rbody).1 = rb ∧ (ReadAll rbody).2.1 = none →
      ∃ t2 fresh, saveResponseBody t = some (t2, none) ∧ t2.resBytes = rb ∧
        t2.res = some { res with Body := some fresh } ∧
        (ReadAll fresh).1 = rb ∧ (ReadAll fresh).2.1 = none) ∧
    (∀ (body : Body) (b : String), req.Body = some body →
      (ReadAll body).1 = b ∧ (ReadAll body).2.1 = none →
      ∃ fresh, capturedRequest req = { req with Body := some fresh } ∧
        (ReadAll fresh).1 = b ∧ (ReadAll fresh).2.1 = none) ∧
    (req.Body = none → capturedRequest req = req) ∧
    (∀ (handler : Handler) (rbody : Body) (rb : String),
      (∀ body, req.Body = some body → (ReadAll body).2.1 = none) →
      (handler (capturedRequest req)).2.Body = some rbody →
      (ReadAll rbody).1 = rb ∧ (ReadAll rbody).2.1 = none →
      ∃ r fresh, SendRequest handler s = some r ∧ r.log = [] ∧
        r.s.reqBytes = (match req.Body with
          | none => s.reqBytes
          | some body => (ReadAll body).1) ∧
        r.s.resBytes = rb ∧
        r.s.req = some (handler (capturedRequest req)).1 ∧
        r.returned = some { (handler (capturedRequest req)).2 with Body := some fresh } ∧
        r.s.res = r.returned ∧
        (ReadAll fresh).1 = rb ∧ (ReadAll fresh).2.1 = none) := by
  refine ⟨?_, ?_, ?_, ?_, ?_⟩
  · intro body b hb hread
    obtain ⟨hdata, herr⟩ := hread
    simp only [ReadAll] at hdata herr
    have hsave : saveRequestBody s = some
        ({ s with reqBytes := b, req := some { req with Body := some (NopCloserBuffer b) } },
          none) := by
      simp [saveRequestBody, h, hb, ReadAll, herr, hdata]
    exact ⟨_, NopCloserBuffer b, hsave, rfl, rfl, rfl, rfl⟩
  · intro t res rbody rb ht hrb hr
    obtain ⟨hd, he⟩ := hr
    simp only [ReadAll] at hd he
    refine ⟨{ t with resBytes := rb, res := some { res with Body := some (NopCloserBuffer rb) } },
      NopCloserBuffer rb, ?_, rfl, rfl, rfl, rfl⟩
    simp [saveResponseBody, ht, hrb, ReadAll, he, hd]
  · intro body b hb hread
    obtain ⟨hdata, _⟩ := hread
    simp only [ReadAll] at hdata
    refine ⟨NopCloserBuffer b, ?_, rfl, rfl⟩
    simp [capturedRequest, hb, hdata]
  · intro hb
    simp [capturedRequest, hb]
  · intro handler rbody rb hbody hrb hr
    obtain ⟨hd, he⟩ := hr
    simp only [ReadAll] at hd he
    cases hb : req.Body with
    | none =>
      have hc : capturedRequest req = req := by simp [capturedRequest, hb]
      rw [hc] at hrb ⊢
      have hsend : ∃ r, SendRequest handler s = some r ∧ r.log = [] ∧
          r.s.reqBytes = s.reqBytes ∧ r.s.resBytes = rb ∧ r.s.req = some (handler req).1 ∧
          r.returned = some { (handler req).2 with Body := some (NopCloserBuffer rb) } ∧
          r.s.res = r.returned := by
        simp only [SendRequest, h, hb]
        simp only [hrb, saveResponseBody, ReadAll, he, hd]
        exact ⟨_, rfl, rfl, rfl, rfl, rfl, rfl, rfl⟩
      obtain ⟨r, h1, h2, h3, h4, h5, h6, h7⟩ := hsend
      exact ⟨r, NopCloserBuffer rb, h1, h2, h3, h4, h5, h6, h7, rfl, rfl⟩
    | some body =>
      have herr : body.readErr = none := hbody body hb
      have hc : capturedRequest req
          = { req with Body := some (NopCloserBuffer body.data) } := by
        simp [capturedRequest, hb]
      rw [hc] at hrb ⊢
      have hsave : saveRequestBody s = some
          ({ s with reqBytes := body.data,
                    req := some { req with Body := some (NopCloserBuffer body.data) } },
            none) := by
        simp [saveRequestBody, h, hb, ReadAll, herr]
      have hsend : ∃ r, SendRequest handler s = some r ∧ r.log = [] ∧
          r.s.reqBytes = body.data ∧ r.s.resBytes = rb ∧
          r.s.req = some (handler { req with Body := some (NopCloserBuffer body.data) }).1 ∧
          r.returned = some { (handler { req with Body := some (NopCloserBuffer body.data) }).2
            with Body := some (NopCloserBuffer rb) } ∧
          r.s.res = r.returned := by
        simp only [SendRequest, h, hb, hsave]
        simp only [hrb, saveResponseBody, ReadAll, he, hd]
        exact ⟨_, rfl, rfl, rfl, rfl, rfl, rfl, rfl⟩
      obtain ⟨r, h1, h2, h3, h4, h5, h6, h7⟩ := hsend
      exact ⟨r, NopCloserBuffer rb, h1, h2, h3, h4, h5, h6, h7, rfl, rfl⟩

/-- Witness of C1: `SendRequest` with a handler that writes `hello`, at the
recorder of the test, whose request has a body, and at a recorder whose request
has none. -/
theorem body_capture_round_trip_witness :
    (testRecorder.req = some testRequest ∧ bodilessRecorder.req = some bodilessRequest) ∧
    (∃ r fresh, SendRequest helloHandler testRecorder = some r ∧ r.log = [] ∧
      r.s.reqBytes = "\x7b\"title\": \"Test Task\"\x7d" ∧ r.s.resBytes = "hello" ∧
      r.s.req = some { testRequest with
        Body := some (NopCloserBuffer "\x7b\"title\": \"Test Task\"\x7d") } ∧
      r.returned = some { helloResponse with Body := some fresh } ∧
      r.s.res = r.returned ∧ (ReadAll fresh).1 = "hello" ∧ (ReadAll fresh).2.1 = none) ∧
    (∃ r fresh, SendRequest helloHandler bodilessRecorder = some r ∧ r.log = [] ∧
      r.s.reqBytes = "" ∧ r.s.resBytes = "hello" ∧
      r.s.req = some bodilessRequest ∧
      r.returned = some { helloResponse with Body := some fresh } ∧
      r.s.res = r.returned ∧ (ReadAll fresh).1 = "hello" ∧ (ReadAll fresh).2.1 = none) :=
  ⟨⟨rfl, rfl⟩,
    (body_capture_round_trip testRecorder testRequest rfl).2.2.2.2 helloHandler
      (NopCloserBuffer "hello") "hello" (fun _ hb => by cases hb; rfl) rfl ⟨rfl, rfl⟩,
    (body_capture_round_trip bodilessRecorder bodilessRequest rfl).2.2.2.2 helloHandler
      (NopCloserBuffer "hello") "hello" (fun _ hb => by cases hb) rfl ⟨rfl, rfl⟩⟩

/-! ## The response file and the captured bytes -/

/-- C10, the code at the failing input: after `SendRequest` against a handler
that writes `hello` the captured response bytes are `hello`, and the response
file ends with `hello` when the caller reads nothing; once the caller has read
two characters of the returned body the file ends with `llo`, and once it has
read all five the body section is empty. -/
theorem response_file_misses_bytes_read_by_caller :
    ∃ r, SendRequest helloHandler testRecorder = some r ∧ r.s.resBytes = "hello" ∧
      (prettyPrintResponse indentFails sampleNow r.s).map (fun x => x.1) = some
        (responseBanner sampleNow ++ "POST /tasks HTTP/1.1\n\n" ++ "HTTP/1.1 200 OK\n" ++
          "Content-Type: text/plain; charset=utf-8\n" ++ "\n" ++ "hello", none) ∧
      (prettyPrintResponse indentFails sampleNow (callerReads 2 r.s)).map (fun x => x.1) = some
        (responseBanner sampleNow ++ "POST /tasks HTTP/1.1\n\n" ++ "HTTP/1.1 200 OK\n" ++
          "Content-Type: text/plain; charset=utf-8\n" ++ "\n" ++ "llo", none) ∧
      (prettyPrintResponse indentFails sampleNow (callerReads 5 r.s)).map (fun x => x.1) = some
        (responseBanner sampleNow ++ "POST /tasks HTTP/1.1\n\n" ++ "HTTP/1.1 200 OK\n" ++
          "Content-Type: text/plain; charset=utf-8\n" ++ "\n", none) := by
  refine ⟨_, rfl, rfl, ?_, ?_, ?_⟩ <;> decide

/-! ## Absent bodies -/

theorem pair_of_fst_none {α β : Type} (x : Option α × β) (h : x.1 = none) : x = (none, x.2) := by
  cases x with
  | mk a b => simp_all

/-- C5 as stated fails: after a handler that writes nothing, and likewise for a
response whose body is nil, the response file does not end with the response
headers: a blank separator line follows them. -/
theorem response_blank_line_without_body :
    (∃ r, SendRequest silentHandler bodilessRecorder = some r ∧ r.s = silentRecorder) ∧
    (prettyPrintResponse indentFails sampleNow silentRecorder).map (fun x => x.1) = some
      (responseHead sampleNow bodilessRequest (okResponse "") ++ "\n", none) ∧
    (prettyPrintResponse indentFails sampleNow silentRecorder).map (fun x => x.1) ≠ some
      (responseHead sampleNow bodilessRequest (okResponse ""), none) ∧
    (prettyPrintResponse indentFails sampleNow
      { silentRecorder with res := some { okResponse "" with Body := none } }).map (fun x => x.1)
      ≠ some (responseHead sampleNow bodilessRequest { okResponse "" with Body := none }, none) := by
  refine ⟨⟨_, rfl, rfl⟩, ?_, ?_, ?_⟩ <;> decide

/-- C5, amended: when the request has no body, the request file ends with the
request headers, without blank separator line or body section; when the
response has no body, nil or a stream that yields nothing (which the JSON
indenter rejects), the response file is the text up to the response headers
followed by the blank separator line and nothing else; in these cases
serialization returns no error, and `Finish` reports no failure when the file
system calls succeed and the response body stream reads and closes without
error. -/
theorem absent_body_sections {σ : Type} (fs : FileSystem σ)
    (jsonIndent : String → Option String) (nowReq nowRes : String) (s : recce)
    (req : Request) (res : Response) (w : σ) (h : s.req = some req) (hres : s.res = some res) :
    (req.Body = none →
      prettyPrintRequest jsonIndent nowReq s = some (requestHead nowReq s req, none)) ∧
    (res.Body = none →
      (prettyPrintResponse jsonIndent nowRes s).map (fun x => x.1) = some
        (responseHead nowRes req res ++ "\n", none)) ∧
    (∀ rb, res.Body = some rb → rb.data = "" → rb.readErr = none → jsonIndent "" = none →
      (prettyPrintResponse jsonIndent nowRes s).map (fun x => x.1) = some
        (responseHead nowRes req res ++ "\n", none)) ∧
    (∀ rb, res.Body = some rb → rb.readErr = none → rb.closeErr = none →
      (∀ path w, (fs.MkdirAll path w).1 = none) →
      (∀ path w, (fs.Create path w).1 = none) →
      (∀ path content w, (fs.WriteString path content w).1 = none) →
      ∃ r, Finish fs jsonIndent nowReq nowRes s w = some r ∧ r.log = []) := by
  refine ⟨?_, ?_, ?_, ?_⟩
  · intro hb
    rw [prettyPrintRequest_shape jsonIndent nowReq s req h, hb]
  · intro hb
    rw [prettyPrintResponse_shape jsonIndent nowRes s req res h hres, hb]
  · intro rb hb hd hr hi
    rw [prettyPrintResponse_shape jsonIndent nowRes s req res h hres, hb]
    simp only [hr, hd]
    have hraw : jsonOrRaw jsonIndent req "" = "" := by
      unfold jsonOrRaw
      rw [hi]
      split <;> rfl
    rw [hraw, String.append_empty]
  · intro rb hb hr hcl hm hc hw
    have hreq := prettyPrintRequest_shape jsonIndent nowReq s req h
    have hq : ∃ content, prettyPrintRequest jsonIndent nowReq s = some (content, none) := by
      rw [hreq]
      cases req.Body <;> exact ⟨_, rfl⟩
    obtain ⟨content, hcontent⟩ := hq
    have hp : ∃ content2, prettyPrintResponse jsonIndent nowRes s = some ((content2, none),
        { s with res := some { res with Body := some { rb with data := "" } } }) := by
      simp only [prettyPrintResponse, h, hres, hb, ReadAll, hr]
      rw [tryPrettyPrinting_eq jsonIndent _ req rfl]
      exact ⟨_, rfl⟩
    obtain ⟨content2, hcontent2⟩ := hp
    have e1 : createTestFile fs jsonIndent nowReq s w = some (none,
        (fs.WriteString (filepath.Join [fullPath s, "sc" ++ Itoa s.tc ++ ".rest"]) content
          (fs.Create (filepath.Join [fullPath s, "sc" ++ Itoa s.tc ++ ".rest"])
            (fs.MkdirAll (fullPath s) w).2).2).2) := by
      unfold createTestFile
      simp only []
      rw [pair_of_fst_none _ (hm (fullPath s) w)]
      simp only []
      rw [pair_of_fst_none _ (hc _ _)]
      simp only [hcontent]
      rw [pair_of_fst_none _ (hw _ _ _)]
    rw [Finish, e1]
    simp only []
    unfold createResponseFile
    simp only []
    rw [pair_of_fst_none _ (hm (fullPath s) _)]
    simp only []
    rw [pair_of_fst_none _ (hc _ _)]
    simp only [hcontent2]
    rw [pair_of_fst_none _ (hw _ _ _)]
    simp only [hcl]
    exact ⟨_, rfl, rfl⟩

/-- Witness of the amended C5 at a request without body answered by a handler
that writes nothing, on a file system that never fails. -/
theorem absent_body_sections_witness :
    (silentRecorder.req = some bodilessRequest ∧ silentRecorder.res = some (okResponse "")) ∧
    prettyPrintRequest indentFails sampleNow silentRecorder
      = some (requestHead sampleNow silentRecorder bodilessRequest, none) ∧
    (prettyPrintResponse indentFails sampleNow silentRecorder).map (fun x => x.1) = some
      (responseHead sampleNow bodilessRequest (okResponse "") ++ "\n", none) ∧
    ∃ r, Finish memFS indentFails sampleNow sampleNow silentRecorder [] = some r ∧ r.log = [] :=
  have h := absent_body_sections memFS indentFails sampleNow sampleNow silentRecorder
    bodilessRequest (okResponse "") [] rfl rfl
  ⟨⟨rfl, rfl⟩, h.1 rfl, h.2.2.1 (NopCloserBuffer "") rfl rfl rfl rfl,
    h.2.2.2 (NopCloserBuffer "") rfl rfl rfl (fun _ _ => rfl) (fun _ _ => rfl)
      (fun _ _ _ => rfl)⟩

/-! ## Failure severity -/

theorem NoError_eq (err : Option String) (log : List Report) :
    NoError err log = log ++ err.toList.map Report.Errorf := by
  cases err <;> simp [NoError]

theorem createTestFile_isSome {σ : Type} (fs : FileSystem σ)
    (jsonIndent : String → Option String) (now : String) (s : recce) (req : Request) (w : σ)
    (h : s.req = some req) :
    ∃ e w1, createTestFile fs jsonIndent now s w = some (e, w1) := by
  have hreq := prettyPrintRequest_shape jsonIndent now s req h
  have hq : ∃ content, prettyPrintRequest jsonIndent now s = some (content, none) := by
    rw [hreq]
    cases req.Body <;> exact ⟨_, rfl⟩
  obtain ⟨content, hcontent⟩ := hq
  unfold createTestFile
  simp only []
  rcases fs.MkdirAll (fullPath s) w with ⟨_ | e, w1⟩
  · simp only []
    rcases fs.Create (filepath.Join [fullPath s, "sc" ++ Itoa s.tc ++ ".rest"]) w1 with ⟨_ | e, w2⟩
    · simp only [hcontent]
      rcases fs.WriteString (filepath.Join [fullPath s, "sc" ++ Itoa s.tc ++ ".rest"]) content w2
        with ⟨_ | e, w3⟩
      · exact ⟨_, _, rfl⟩
      · exact ⟨_, _, rfl⟩
    · exact ⟨_, _, rfl⟩
  · exact ⟨_, _, rfl⟩

theorem createResponseFile_isSome {σ : Type} (fs : FileSystem σ)
    (jsonIndent : String → Option String) (now : String) (s : recce) (req : Request)
    (res : Response) (rb : Body) (w : σ)
    (h : s.req = some req) (hres : s.res = some res) (hrb : res.Body = some rb) :
    ∃ e s2 w2 rb2, createResponseFile fs jsonIndent now s w = some (e, s2, w2) ∧
      s2.res = some { res with Body := some rb2 } ∧ rb2.closeErr = rb.closeErr := by
  have hres2 : s.res = some { res with Body := some rb } := by rw [hres, ← hrb]
  have hp : ∃ out s2 rb2, prettyPrintResponse jsonIndent now s = some (out, s2) ∧
      s2.res = some { res with Body := some rb2 } ∧ rb2.closeErr = rb.closeErr := by
    simp only [prettyPrintResponse, h, hres, hrb, ReadAll]
    cases rb.readErr with
    | some e => exact ⟨_, _, _, rfl, rfl, rfl⟩
    | none =>
      simp only []
      rw [tryPrettyPrinting_eq jsonIndent _ req rfl]
      exact ⟨_, _, _, rfl, rfl, rfl⟩
  obtain ⟨⟨content, err⟩, s2, rb2, hcontent, hs2, hclose⟩ := hp
  unfold createResponseFile
  simp only []
  rcases fs.MkdirAll (fullPath s) w with ⟨_ | e, w1⟩
  · simp only []
    rcases fs.Create (filepath.Join [fullPath s, "sc" ++ Itoa s.tc ++ ".resp"]) w1 with ⟨_ | e, w2⟩
    · simp only [hcontent]
      cases err with
      | some e => exact ⟨_, _, _, rb2, rfl, hs2, hclose⟩
      | none =>
        simp only []
        rcases fs.WriteString (filepath.Join [fullPath s, "sc" ++ Itoa s.tc ++ ".resp"]) content w2
          with ⟨_ | e, w3⟩
        · exact ⟨_, _, _, rb2, rfl, hs2, hclose⟩
        · exact ⟨_, _, _, rb2, rfl, hs2, hclose⟩
    · exact ⟨_, _, _, rb, rfl, hres2, rfl⟩
  · exact ⟨_, _, _, rb, rfl, hres2, rfl⟩

theorem prettyPrintRequest_text (jsonIndent : String → Option String) (now : String)
    (s : recce) (req : Request) (h : s.req = some req) :
    prettyPrintRequest jsonIndent now s = some (requestFileText jsonIndent now s req, none) := by
  rw [prettyPrintRequest_shape jsonIndent now s req h]
  unfold requestFileText
  cases req.Body <;> rfl

theorem prettyPrintResponse_read (jsonIndent : String → Option String) (now : String)
    (s : recce) (req : Request) (res : Response) (rb : Body)
    (h : s.req = some req) (hres : s.res = some res) (hrb : res.Body = some rb) :
    prettyPrintResponse jsonIndent now s = some
      ((match rb.readErr with
        | some e => ("", some e)
        | none => (responseFileText jsonIndent now req res rb, none)),
        { s with res := some { res with Body := some { rb with data := "" } } }) := by
  unfold prettyPrintResponse responseFileText responseHead
  simp only [h, hres, hrb, writeHeaders_eq, ReadAll]
  cases rb.readErr with
  | some e => rfl
  | none =>
    simp only []
    rw [tryPrettyPrinting_eq jsonIndent _ req rfl]

theorem createTestFile_eq {σ : Type} (fs : FileSystem σ)
    (jsonIndent : String → Option String) (now : String) (s : recce) (req : Request) (w : σ)
    (h : s.req = some req) :
    createTestFile fs jsonIndent now s w = some
      (match (fs.MkdirAll (fullPath s) w).1 with
        | some e => (some ("error creating directories: " ++ e), (fs.MkdirAll (fullPath s) w).2)
        | none =>
          match (fs.Create (filepath.Join [fullPath s, "sc" ++ Itoa s.tc ++ ".rest"])
              (fs.MkdirAll (fullPath s) w).2).1 with
          | some e => (some ("error creating file: " ++ e),
              (fs.Create (filepath.Join [fullPath s, "sc" ++ Itoa s.tc ++ ".rest"])
                (fs.MkdirAll (fullPath s) w).2).2)
          | none =>
            match (fs.WriteString (filepath.Join [fullPath s, "sc" ++ Itoa s.tc ++ ".rest"])
                (requestFileText jsonIndent now s req)
                (fs.Create (filepath.Join [fullPath s, "sc" ++ Itoa s.tc ++ ".rest"])
                  (fs.MkdirAll (fullPath s) w).2).2).1 with
            | some e => (some ("error writing to file: " ++ e),
                (fs.WriteString (filepath.Join [fullPath s, "sc" ++ Itoa s.tc ++ ".rest"])
                  (requestFileText jsonIndent now s req)
                  (fs.Create (filepath.Join [fullPath s, "sc" ++ Itoa s.tc ++ ".rest"])
                    (fs.MkdirAll (fullPath s) w).2).2).2)
            | none => (none,
                (fs.WriteString (filepath.Join [fullPath s, "sc" ++ Itoa s.tc ++ ".rest"])
                  (requestFileText jsonIndent now s req)
                  (fs.Create (filepath.Join [fullPath s, "sc" ++ Itoa s.tc ++ ".rest"])
                    (fs.MkdirAll (fullPath s) w).2).2).2)) := by
  unfold createTestFile
  simp only []
  rcases fs.MkdirAll (fullPath s) w with ⟨_ | e, w1⟩
  · simp only []
    rcases fs.Create (filepath.Join [fullPath s, "sc" ++ Itoa s.tc ++ ".rest"]) w1 with ⟨_ | e, w2⟩
    · simp only [prettyPrintRequest_text jsonIndent now s req h]
      rcases fs.WriteString (filepath.Join [fullPath s, "sc" ++ Itoa s.tc ++ ".rest"])
        (requestFileText jsonIndent now s req) w2 with ⟨_ | e, w3⟩ <;> rfl
    · rfl
  · rfl

theorem createResponseFile_eq {σ : Type} (fs : FileSystem σ)
    (jsonIndent : String → Option String) (now : String) (s : recce) (req : Request)
    (res : Response) (rb : Body) (w : σ)
    (h : s.req = some req) (hres : s.res = some res) (hrb : res.Body = some rb) :
    createResponseFile fs jsonIndent now s w = some
      (match (fs.MkdirAll (fullPath s) w).1 with
        | some e => (some ("error creating directories: " ++ e), s,
            (fs.MkdirAll (fullPath s) w).2)
        | none =>
          match (fs.Create (filepath.Join [fullPath s, "sc" ++ Itoa s.tc ++ ".resp"])
              (fs.MkdirAll (fullPath s) w).2).1 with
          | some e => (some ("error creating file: " ++ e), s,
              (fs.Create (filepath.Join [fullPath s, "sc" ++ Itoa s.tc ++ ".resp"])
                (fs.MkdirAll (fullPath s) w).2).2)
          | none =>
            match rb.readErr with
            | some e => (some ("error pretty printing response: " ++ e),
                { s with res := some { res with Body := some { rb with data := "" } } },
                (fs.Create (filepath.Join [fullPath s, "sc" ++ Itoa s.tc ++ ".resp"])
                  (fs.MkdirAll (fullPath s) w).2).2)
            | none =>
              match (fs.WriteString (filepath.Join [fullPath s, "sc" ++ Itoa s.tc ++ ".resp"])
                  (responseFileText jsonIndent now req res rb)
                  (fs.Create (filepath.Join [fullPath s, "sc" ++ Itoa s.tc ++ ".resp"])
                    (fs.MkdirAll (fullPath s) w).2).2).1 with
              | some e => (some ("error writing to file: " ++ e),
                  { s with res := some { res with Body := some { rb with data := "" } } },
                  (fs.WriteString (filepath.Join [fullPath s, "sc" ++ Itoa s.tc ++ ".resp"])
                    (responseFileText jsonIndent now req res rb)
                    (fs.Create (filepath.Join [fullPath s, "sc" ++ Itoa s.tc ++ ".resp"])
                      (fs.MkdirAll (fullPath s) w).2).2).2)
              | none => (none,
                  { s with res := some { res with Body := some { rb with data := "" } } },
                  (fs.WriteString (filepath.Join [fullPath s, "sc" ++ Itoa s.tc ++ ".resp"])
                    (responseFileText jsonIndent now req res rb)
                    (fs.Create (filepath.Join [fullPath s, "sc" ++ Itoa s.tc ++ ".resp"])
                      (fs.MkdirAll (fullPath s) w).2).2).2)) := by
  unfold createResponseFile
  simp only []
  rcases fs.MkdirAll (fullPath s) w with ⟨_ | e, w1⟩
  · simp only []
    rcases fs.Create (filepath.Join [fullPath s, "sc" ++ Itoa s.tc ++ ".resp"]) w1 with ⟨_ | e, w2⟩
    · simp only [prettyPrintResponse_read jsonIndent now s req res rb h hres hrb]
      cases rb.readErr with
      | some e => rfl
      | none =>
        simp only []
        rcases fs.WriteString (filepath.Join [fullPath s, "sc" ++ Itoa s.tc ++ ".resp"])
          (responseFileText jsonIndent now req res rb) w2 with ⟨_ | e, w3⟩ <;> rfl
    · rfl
  · rfl

/-- C8: for a recorder holding a request, a response and a response body.
The request file step calls `MkdirAll`, `Create` and `WriteString` (with the
text of the request file) in that order, stops at the first call that fails and
returns its error under the prefix of that call, and returns no error when all
three succeed; the response file step does the same with the response file,
reading the response body between `Create` and `WriteString` and returning a
read error too. `Finish` runs the request file step, the response file step
on the world the first left, whatever the first returned, and the close of the
response body, and its log holds exactly the errors of the three steps, in
order, each as a non-fatal record. In `SendRequest` an error reading the
request body stops the test by `FailNow` before the handler runs, and an error
reading the response body stops it by `FailNow` before the method returns. -/
theorem failure_severity_by_phase {σ : Type} (fs : FileSystem σ)
    (jsonIndent : String → Option String) (nowReq nowRes : String) (s : recce)
    (req : Request) (res : Response) (rb : Body) (w : σ)
    (h : s.req = some req) (hres : s.res = some res) (hrb : res.Body = some rb) :
    (∀ (m c x : Option String × σ),
      m = fs.MkdirAll (fullPath s) w →
      c = fs.Create (filepath.Join [fullPath s, "sc" ++ Itoa s.tc ++ ".rest"]) m.2 →
      x = fs.WriteString (filepath.Join [fullPath s, "sc" ++ Itoa s.tc ++ ".rest"])
        (requestFileText jsonIndent nowReq s req) c.2 →
      createTestFile fs jsonIndent nowReq s w = some
        (match m.1 with
          | some e => (some ("error creating directories: " ++ e), m.2)
          | none =>
            match c.1 with
            | some e => (some ("error creating file: " ++ e), c.2)
            | none =>
              match x.1 with
              | some e => (some ("error writing to file: " ++ e), x.2)
              | none => (none, x.2))) ∧
    (∀ (w1 : σ) (m c x : Option String × σ),
      m = fs.MkdirAll (fullPath s) w1 →
      c = fs.Create (filepath.Join [fullPath s, "sc" ++ Itoa s.tc ++ ".resp"]) m.2 →
      x = fs.WriteString (filepath.Join [fullPath s, "sc" ++ Itoa s.tc ++ ".resp"])
        (responseFileText jsonIndent nowRes req res rb) c.2 →
      createResponseFile fs jsonIndent nowRes s w1 = some
        (match m.1 with
          | some e => (some ("error creating directories: " ++ e), s, m.2)
          | none =>
            match c.1 with
            | some e => (some ("error creating file: " ++ e), s, c.2)
            | none =>
              match rb.readErr with
              | some e => (some ("error pretty printing response: " ++ e),
                  { s with res := some { res with Body := some { rb with data := "" } } }, c.2)
              | none =>
                match x.1 with
                | some e => (some ("error writing to file: " ++ e),
                    { s with res := some { res with Body := some { rb with data := "" } } }, x.2)
                | none => (none,
                    { s with res := some { res with Body := some { rb with data := "" } } },
                    x.2))) ∧
    (∃ e1 w1 e2 s2 w2 r,
      createTestFile fs jsonIndent nowReq s w = some (e1, w1) ∧
      createResponseFile fs jsonIndent nowRes s w1 = some (e2, s2, w2) ∧
      Finish fs jsonIndent nowReq nowRes s w = some r ∧
      r.s = s2 ∧ r.world = w2 ∧
      r.log = (e1.toList ++ e2.toList ++ rb.closeErr.toList).map Report.Errorf) ∧
    (∀ (handler : Handler) (t : recce) (treq : Request) (body : Body) (e : String),
      t.req = some treq → treq.Body = some body → body.readErr = some e →
      ∃ r, SendRequest handler t = some r ∧ r.log = [Report.FailNow e] ∧
        r.returned = none ∧ r.s.res = t.res) ∧
    (∀ (handler : Handler) (t : recce) (treq : Request) (rbody : Body) (e : String),
      t.req = some treq → (∀ body, treq.Body = some body → body.readErr = none) →
      (handler (capturedRequest treq)).2.Body = some rbody → rbody.readErr = some e →
      ∃ r, SendRequest handler t = some r ∧ r.log = [Report.FailNow e] ∧
        r.returned = none) := by
  refine ⟨?_, ?_, ?_, ?_, ?_⟩
  · intro m c x hm hc hx
    subst hm
    subst hc
    subst hx
    exact createTestFile_eq fs jsonIndent nowReq s req w h
  · intro w1 m c x hm hc hx
    subst hm
    subst hc
    subst hx
    exact createResponseFile_eq fs jsonIndent nowRes s req res rb w1 h hres hrb
  · obtain ⟨e1, w1, h1⟩ := createTestFile_isSome fs jsonIndent nowReq s req w h
    obtain ⟨e2, s2, w2, rb2, h2, hs2, hclose⟩ :=
      createResponseFile_isSome fs jsonIndent nowRes s req res rb w1 h hres hrb
    refine ⟨e1, w1, e2, s2, w2, FinishResult.mk s2 w2
      ((e1.toList ++ e2.toList ++ rb.closeErr.toList).map Report.Errorf), h1, h2, ?_,
      rfl, rfl, rfl⟩
    simp only [Finish, h1, h2, hs2, NoError_eq, hclose]
    simp
  · intro handler t treq body e ht hb he
    have hsave : saveRequestBody t = some
        ({ t with reqBytes := body.data,
                  req := some { treq with Body := some { body with data := "" } } }, some e) := by
      simp [saveRequestBody, ht, hb, ReadAll, he]
    have hs : ∃ st, SendRequest handler t = some (SendResult.mk st [Report.FailNow e] none) ∧
        st.res = t.res := by
      simp only [SendRequest, ht, hb, hsave]
      exact ⟨_, rfl, rfl⟩
    obtain ⟨st, hst, hsres⟩ := hs
    exact ⟨_, hst, rfl, rfl, hsres⟩
  · intro handler t treq rbody e ht hbody hrb he
    have hs : ∃ st, SendRequest handler t = some (SendResult.mk st [Report.FailNow e] none) := by
      cases hb : treq.Body with
      | none =>
        have hc : capturedRequest treq = treq := by simp [capturedRequest, hb]
        rw [hc] at hrb
        simp only [SendRequest, ht, hb]
        simp only [hrb, saveResponseBody, ReadAll, he]
        exact ⟨_, rfl⟩
      | some body =>
        have hc : capturedRequest treq
            = { treq with Body := some (NopCloserBuffer body.data) } := by
          simp [capturedRequest, hb]
        rw [hc] at hrb
        have hsave : saveRequestBody t = some
            ({ t with reqBytes := body.data,
                      req := some { treq with Body := some (NopCloserBuffer body.data) } },
              none) := by
          simp [saveRequestBody, ht, hb, ReadAll, hbody body hb]
        simp only [SendRequest, ht, hb, hsave]
        simp only [hrb, saveResponseBody, ReadAll, he]
        exact ⟨_, rfl⟩
    obtain ⟨st, hst⟩ := hs
    exact ⟨_, hst, rfl, rfl⟩

/-- Witness of C8, at a recorder whose response body fails on close. On a file
system where `MkdirAll` fails, where only `Create` fails, and where only
`WriteString` fails, `Finish` makes the calls of both file steps up to the
failing one, in order, and logs the error of each step and of the close as
three non-fatal records; a request body that fails on read stops `SendRequest`
by `FailNow`. -/
theorem failure_severity_by_phase_witness :
    (closeFailsRecorder.req = some jsonRequest ∧
      (∃ res rb, closeFailsRecorder.res = some res ∧ res.Body = some rb)) ∧
    createTestFile createFailsFS indentFails sampleNow closeFailsRecorder [] = some
      (some "error creating file: permission denied",
        ["MkdirAll recordings/rest", "Create recordings/rest/sc1.rest"]) ∧
    createTestFile writeFailsFS indentFails sampleNow closeFailsRecorder [] = some
      (some "error writing to file: disk full",
        ["MkdirAll recordings/rest", "Create recordings/rest/sc1.rest",
          "WriteString recordings/rest/sc1.rest"]) ∧
    (∃ r, Finish brokenFS indentFails sampleNow sampleNow closeFailsRecorder [] = some r ∧
      r.world = ["MkdirAll recordings/rest", "MkdirAll recordings/rest"] ∧
      r.log = [Report.Errorf "error creating directories: permission denied",
        Report.Errorf "error creating directories: permission denied",
        Report.Errorf "already closed"]) ∧
    (∃ r, Finish createFailsFS indentFails sampleNow sampleNow closeFailsRecorder [] = some r ∧
      r.world = ["MkdirAll recordings/rest", "Create recordings/rest/sc1.rest",
        "MkdirAll recordings/rest", "Create recordings/rest/sc1.resp"] ∧
      r.log = [Report.Errorf "error creating file: permission denied",
        Report.Errorf "error creating file: permission denied",
        Report.Errorf "already closed"]) ∧
    (∃ r, Finish writeFailsFS indentFails sampleNow sampleNow closeFailsRecorder [] = some r ∧
      r.world = ["MkdirAll recordings/rest", "Create recordings/rest/sc1.rest",
        "WriteString recordings/rest/sc1.rest", "MkdirAll recordings/rest",
        "Create recordings/rest/sc1.resp", "WriteString recordings/rest/sc1.resp"] ∧
      r.log = [Report.Errorf "error writing to file: disk full",
        Report.Errorf "error writing to file: disk full",
        Report.Errorf "already closed"]) ∧
    (∃ r, SendRequest helloHandler readFailsRecorder = some r ∧
      r.log = [Report.FailNow "unexpected EOF"] ∧ r.returned = none ∧
      r.s.res = readFailsRecorder.res) :=
  have hc := failure_severity_by_phase createFailsFS indentFails sampleNow sampleNow
    closeFailsRecorder jsonRequest
    { helloResponse with
      Body := some { data := "hello", readErr := none, closeErr := some "already closed" } }
    { data := "hello", readErr := none, closeErr := some "already closed" } [] rfl rfl rfl
  have hw := failure_severity_by_phase writeFailsFS indentFails sampleNow sampleNow
    closeFailsRecorder jsonRequest
    { helloResponse with
      Body := some { data := "hello", readErr := none, closeErr := some "already closed" } }
    { data := "hello", readErr := none, closeErr := some "already closed" } [] rfl rfl rfl
  ⟨⟨rfl, _, _, rfl, rfl⟩,
    (hc.1 _ _ _ rfl rfl rfl).trans (by decide),
    (hw.1 _ _ _ rfl rfl rfl).trans (by decide),
    ⟨_, rfl, by decide, by decide⟩,
    ⟨_, rfl, by decide, by decide⟩,
    ⟨_, rfl, by decide, by decide⟩,
    hc.2.2.2.1 helloHandler readFailsRecorder _ _ "unexpected EOF" rfl rfl rfl⟩

/-! ## Paths -/

theorem splitChars_append_sep (sep : Char) (a b : List Char) :
    splitChars sep (a ++ sep :: b) = splitChars sep a ++ splitChars sep b := by
  induction a with
  | nil => simp [splitChars]
  | cons c a ih =>
    by_cases h : c = sep
    · simp [splitChars, h, ih]
    · cases hs : splitChars sep a with
      | nil => exact absurd hs (splitChars_ne_nil sep a)
      | cons w ws =>
        simp only [List.cons_append, splitChars, h, if_false]
        rw [show a.append (sep :: b) = a ++ sep :: b from rfl, ih, hs]
        rfl

theorem Split_append_sep (a b : String) (sep : Char) :
    strings.Split (a ++ String.singleton sep ++ b) sep
      = strings.Split a sep ++ strings.Split b sep := by
  unfold strings.Split
  have h : (a ++ String.singleton sep ++ b).data = a.data ++ sep :: b.data := by
    simp [String.data_append, String.singleton]
  rw [h, splitChars_append_sep, List.map_append]

theorem Join_cons_cons (a b : String) (rest : List String) (sep : String) :
    strings.Join (a :: b :: rest) sep = a ++ sep ++ strings.Join (b :: rest) sep := rfl

theorem Join_splitChars (sep : Char) (cs : List Char) :
    strings.Join ((splitChars sep cs).map String.mk) (String.singleton sep) = ⟨cs⟩ := by
  induction cs with
  | nil => rfl
  | cons c cs ih =>
    cases hs : splitChars sep cs with
    | nil => exact absurd hs (splitChars_ne_nil sep cs)
    | cons w ws =>
      rw [hs] at ih
      by_cases h : c = sep
      · simp only [splitChars, h, if_true, hs, List.map_cons, Join_cons_cons]
        simp only [List.map_cons] at ih
        rw [ih]
        apply String.ext
        simp [String.data_append, String.singleton]
      · simp only [splitChars, h, if_false, hs, List.map_cons]
        cases ws with
        | nil =>
          simp only [List.map_nil, strings.Join] at ih ⊢
          have hcs : cs = w := (congrArg String.data ih).symm
          rw [hcs]
        | cons w2 ws2 =>
          simp only [List.map_cons, Join_cons_cons] at ih ⊢
          have hcs := (congrArg String.data ih).symm
          simp only [String.data_append] at hcs
          apply String.ext
          simp only [String.data_append, hcs, List.cons_append]

theorem Join_Split (g : String) (sep : Char) :
    strings.Join (strings.Split g sep) (String.singleton sep) = g :=
  Join_splitChars sep g.data

theorem foldl_cleanStep_plain (rooted : Bool) (segs : List String)
    (hplain : ∀ seg ∈ segs, PlainElem seg) : ∀ stack : List String,
    segs.foldl (cleanStep rooted) stack = segs.reverse ++ stack := by
  induction segs with
  | nil => intro stack; rfl
  | cons seg segs ih =>
    intro stack
    obtain ⟨h1, h2, h3⟩ := hplain seg (List.mem_cons_self seg segs)
    have hstep : cleanStep rooted stack seg = seg :: stack := by
      simp [cleanStep, h1, h2, h3]
    rw [List.foldl_cons, hstep, ih (fun x hx => hplain x (List.mem_cons_of_mem seg hx))]
    simp

theorem cleanElems_append_plain (rooted : Bool) (elems segs : List String)
    (hplain : ∀ seg ∈ segs, PlainElem seg) :
    cleanElems rooted (elems ++ segs) = cleanElems rooted elems ++ segs := by
  unfold cleanElems
  rw [List.foldl_append, foldl_cleanStep_plain rooted segs hplain]
  simp

theorem cleanElems_plain (rooted : Bool) (segs : List String)
    (hplain : ∀ seg ∈ segs, PlainElem seg) : cleanElems rooted segs = segs := by
  have h := cleanElems_append_plain rooted [] segs hplain
  simpa [cleanElems] using h

theorem Split_ne_nil (g : String) (sep : Char) : strings.Split g sep ≠ [] := by
  unfold strings.Split
  intro h
  exact splitChars_ne_nil sep g.data (List.map_eq_nil_iff.mp h)

theorem singleton_slash : String.singleton '/' = "/" := rfl

theorem plain_group_facts (g : String)
    (hplain : ∀ seg ∈ strings.Split g '/', PlainElem seg) :
    g ≠ "" ∧ isRooted g = false ∧ (strings.Split g '/').headD "" ≠ "" := by
  have hhead : (strings.Split g '/').headD "" ≠ "" := by
    cases hs : strings.Split g '/' with
    | nil => exact absurd hs (Split_ne_nil g '/')
    | cons e rest =>
      have he := hplain e (by rw [hs]; exact List.mem_cons_self e rest)
      exact he.1
  have hdata : g.data ≠ [] ∧ g.data.head? ≠ some '/' := by
    rw [Split_headD] at hhead
    cases hd : g.data with
    | nil =>
      rw [hd] at hhead
      exact absurd rfl hhead
    | cons c cs =>
      refine ⟨List.cons_ne_nil c cs, ?_⟩
      intro hc
      have hc2 : c = '/' := by simpa using hc
      rw [hd, hc2] at hhead
      exact hhead (by simp [List.takeWhile])
  refine ⟨?_, ?_, hhead⟩
  · intro hg
    rw [hg] at hdata
    exact hdata.1 rfl
  · unfold isRooted
    simp [hdata.2]

theorem renderPath_unrooted (elems : List String) (h : elems ≠ []) :
    renderPath false elems = strings.Join elems "/" := by
  simp [renderPath, h]

theorem Clean_plain_group (g : String)
    (hplain : ∀ seg ∈ strings.Split g '/', PlainElem seg) : filepath.Clean g = g := by
  obtain ⟨hne, hroot, _⟩ := plain_group_facts g hplain
  unfold filepath.Clean
  rw [if_neg hne, hroot, cleanElems_plain false _ hplain,
    renderPath_unrooted _ (Split_ne_nil g '/'), ← singleton_slash, Join_Split]

theorem filepathJoin_Split_plain (g : String)
    (hplain : ∀ seg ∈ strings.Split g '/', PlainElem seg) :
    filepath.Join (strings.Split g '/') = g := by
  obtain ⟨_, _, hhead⟩ := plain_group_facts g hplain
  cases hs : strings.Split g '/' with
  | nil => exact absurd hs (Split_ne_nil g '/')
  | cons e rest =>
    rw [hs] at hhead
    simp only [List.headD_cons] at hhead
    unfold filepath.Join
    rw [if_neg hhead, ← hs, ← singleton_slash, Join_Split]
    exact Clean_plain_group g hplain

theorem isRooted_append (a b : String) (ha : a ≠ "") : isRooted (a ++ b) = isRooted a := by
  unfold isRooted
  cases hd : a.data with
  | nil => exact absurd (String.ext hd) ha
  | cons c cs => simp [String.data_append, hd]

theorem append_ne_empty (a b : String) (ha : a ≠ "") : a ++ b ≠ "" := by
  intro h
  have hd := congrArg String.data h
  simp only [String.data_append] at hd
  have : a.data = [] := (List.append_eq_nil.mp hd).1
  exact ha (String.ext this)

theorem fullPath_eq (s : recce) (hplain : ∀ seg ∈ strings.Split s.group '/', PlainElem seg) :
    fullPath s = renderPath (isRooted s.dir)
      (cleanElems (isRooted s.dir) (strings.Split s.dir '/') ++ strings.Split s.group '/') := by
  unfold fullPath
  simp only []
  rw [filepathJoin_Split_plain s.group hplain]
  obtain ⟨hne, _, _⟩ := plain_group_facts s.group hplain
  by_cases hdir : s.dir = ""
  · rw [hdir]
    have h1 : filepath.Join ["", s.group] = filepath.Clean s.group := by
      simp [filepath.Join, hne, strings.Join]
    have h2 : cleanElems (isRooted "") (strings.Split "" '/') = [] := by decide
    have h3 : isRooted "" = false := by decide
    rw [h1, h2, h3, List.nil_append, renderPath_unrooted _ (Split_ne_nil _ _),
      ← singleton_slash, Join_Split]
    exact Clean_plain_group s.group hplain
  · have h1 : filepath.Join [s.dir, s.group] = filepath.Clean (s.dir ++ "/" ++ s.group) := by
      simp [filepath.Join, hdir, strings.Join]
    rw [h1]
    unfold filepath.Clean
    have hne2 : s.dir ++ "/" ++ s.group ≠ "" := by
      rw [String.append_assoc]
      exact append_ne_empty _ _ hdir
    have hroot : isRooted (s.dir ++ "/" ++ s.group) = isRooted s.dir := by
      rw [String.append_assoc]
      exact isRooted_append _ _ hdir
    rw [if_neg hne2, hroot, ← singleton_slash, Split_append_sep,
      cleanElems_append_plain _ _ _ hplain]

/-- C4 as stated fails: the group `tasks//create` has three slash-separated
segments, yet under the default root it resolves to `recordings/tasks/create`,
two directories below the root and not the root followed by one directory per
segment; the group `..` resolves to `.`, outside the root, and the empty group
to the root itself. -/
theorem fullPath_not_one_directory_per_segment :
    (strings.Split "tasks//create" '/').length = 3 ∧
    fullPath { testRecorder with group := "tasks//create" } = "recordings/tasks/create" ∧
    fullPath { testRecorder with group := "tasks//create" }
      ≠ specFullPath "recordings" "tasks//create" ∧
    fullPath { testRecorder with group := ".." } = "." ∧
    fullPath { testRecorder with group := "" } = "recordings" := by
  refine ⟨?_, ?_, ?_, ?_, ?_⟩ <;> decide

/-- C4, amended: for every output root and every group whose slash-separated
segments are all non-empty and none of them `.` or `..`, `fullPath` is the path
made of the elements of the cleaned root followed by the segments of the group,
one nested directory per segment in order; when the segments of the root are
themselves non-empty and none of them `.` or `..`, that path is the root, a
slash and the group; for the group `tasks/create` of the test and the default
root the result is `recordings/tasks/create`. -/
theorem fullPath_one_directory_per_plain_segment (s : recce)
    (hplain : ∀ seg ∈ strings.Split s.group '/', PlainElem seg) :
    fullPath s = renderPath (isRooted s.dir)
      (cleanElems (isRooted s.dir) (strings.Split s.dir '/') ++ strings.Split s.group '/') ∧
    ((∀ seg ∈ strings.Split s.dir '/', PlainElem seg) →
      fullPath s = s.dir ++ "/" ++ s.group ∧ fullPath s = specFullPath s.dir s.group) ∧
    fullPath testRecorder = "recordings/tasks/create" := by
  refine ⟨fullPath_eq s hplain, ?_, by decide⟩
  intro hdir
  obtain ⟨_, hroot, _⟩ := plain_group_facts s.dir hdir
  have hmain : fullPath s = s.dir ++ "/" ++ s.group := by
    rw [fullPath_eq s hplain, hroot, cleanElems_plain false _ hdir,
      renderPath_unrooted _ (by simp [Split_ne_nil]), ← singleton_slash, ← Split_append_sep,
      Join_Split]
  refine ⟨hmain, ?_⟩
  rw [hmain]
  unfold specFullPath
  cases hs : strings.Split s.group '/' with
  | nil => exact absurd hs (Split_ne_nil _ _)
  | cons e rest =>
    rw [Join_cons_cons, ← hs, ← singleton_slash, Join_Split]

/-- Witness of the amended C4 at the recorder of the test. -/
theorem fullPath_one_directory_per_plain_segment_witness :
    (∀ seg ∈ strings.Split testRecorder.group '/', PlainElem seg) ∧
    fullPath testRecorder = testRecorder.dir ++ "/" ++ testRecorder.group ∧
    fullPath testRecorder = specFullPath testRecorder.dir testRecorder.group :=
  have hg : ∀ seg ∈ strings.Split testRecorder.group '/', PlainElem seg := by
    intro seg hseg
    have hmem : seg ∈ ["tasks", "create"] := hseg
    simp only [List.mem_cons, List.mem_singleton, List.not_mem_nil, or_false] at hmem
    rcases hmem with h | h <;> subst h <;> exact ⟨by decide, by decide, by decide⟩
  have hd : ∀ seg ∈ strings.Split testRecorder.dir '/', PlainElem seg := by
    intro seg hseg
    have hmem : seg ∈ ["recordings"] := hseg
    simp only [List.mem_singleton] at hmem
    subst hmem
    exact ⟨by decide, by decide, by decide⟩
  ⟨hg, (fullPath_one_directory_per_plain_segment testRecorder hg).2.1 hd⟩

end Recce
